import Mathlib

/-!
# Orchestration core of the scanner: `pkg/runner/runner.go`

A shallow embedding of the two pieces of `runner.go` that carry logic:

* the rate-limited dispatch at the end of `New` (pacing ticker, worker, the
  nested `range` loops over `ChanPocs` and `ChanTargets`);
* `runTargetLivenessCheck` (the liveness sweeper and its worker).

External collaborators (`targetlive.TLive.HandleTargetLive`,
`retryhttpclient.CheckHttpsAndLives`, `utils.IsURL`, `core.ExecuteExpression`)
are not part of the file and are taken as parameters.  Calls to them are
recorded in a trace so that "is called exactly once" can be stated.
-/

namespace Runner

/-! ## The pacing ticker of `New` -/

/-- The constant `time.Second`, in nanoseconds (a `time.Duration` counts nanoseconds). -/
def time_Second : Int := 1000000000

/-- Go integer division `a / b`: a run-time panic (`none`) when `b` is zero,
otherwise the quotient truncated toward zero. -/
def goDiv (a b : Int) : Option Int :=
  if b = 0 then none else some (Int.tdiv a b)

/-- The argument of `time.NewTicker` in `New`:
`time.Second / time.Duration(options.RateLimit)`. -/
def tickerPeriod (RateLimit : Int) : Option Int :=
  goDiv time_Second RateLimit

/-- The constructor `time.NewTicker d`: it panics with "non-positive interval for NewTicker"
when `d ≤ 0`, otherwise it yields a ticker of period `d`. -/
def NewTicker (d : Int) : Except String Int :=
  if d ≤ 0 then Except.error "non-positive interval for NewTicker" else Except.ok d

/-- The line `runner.ticker = time.NewTicker(time.Second / time.Duration(options.RateLimit))`. -/
def newRunnerTicker (RateLimit : Int) : Except String Int :=
  match tickerPeriod RateLimit with
  | none => Except.error "integer divide by zero"
  | some d => NewTicker d

/-! ## The dispatch worker and the dispatch loop of `New` -/

/-- The part of `poc.Poc` the runner looks at: its `Id`. -/
structure Poc where
  Id : String
  deriving DecidableEq, Repr

/-- The type `core.TargetAndPocs`, the task handed to the pool. -/
structure TargetAndPocs where
  Target : String
  Poc : Poc
  deriving DecidableEq, Repr

/-- What a dispatch worker does that is visible outside it. -/
inductive DispatchCall where
  /-- The receive `<-runner.ticker.C`. -/
  | tick
  /-- The call `e.ExecuteExpression(ctx, tap.Target, &tap.Poc)`. -/
  | ExecuteExpression (target : String) (poc : Poc)
  /-- The deferred `wg.Done()`. -/
  | done
  deriving DecidableEq, Repr

/-- Go `len` of a string: its number of bytes. -/
def len (s : String) : Nat := s.utf8ByteSize

/-- The function given to `ants.NewPoolWithFunc` in `New`.  The engine is
passed as `ExecuteExpression`; whatever it reports (`ε`) is dropped, the Go
function has no result.  The value returned here is the error surfaced by the
worker (there is none in the source) together with the calls made. -/
def dispatchWorker {ε : Type} (ExecuteExpression : String → Poc → Option ε)
    (tap : TargetAndPocs) : Option ε × List DispatchCall :=
  let waited := [DispatchCall.tick]
  if len tap.Target > 0 ∧ len tap.Poc.Id > 0 then
    let _ := ExecuteExpression tap.Target tap.Poc
    (none, waited ++ [DispatchCall.ExecuteExpression tap.Target tap.Poc] ++ [DispatchCall.done])
  else
    (none, waited ++ [DispatchCall.done])

/-- The inner loop
`for t := range runner.ChanTargets { wg.Add(1); p.Invoke(&core.TargetAndPocs{Target: t, Poc: poc}) }`.
The channel is given by the values still to be received from it before it is
closed; the loop receives all of them. -/
def rangeChanTargets (poc : Poc) : List String → List TargetAndPocs
  | [] => []
  | t :: rest => { Target := t, Poc := poc } :: rangeChanTargets poc rest

/-- The loops `for poc := range runner.ChanPocs { for t := range runner.ChanTargets { ... } }`:
the tasks submitted, in order.  The inner loop ends when `ChanTargets` is
closed and drained, so for the next `poc` there is nothing left to receive. -/
def rangeChanPocs : List Poc → List String → List TargetAndPocs
  | [], _ => []
  | poc :: pocs, ChanTargets => rangeChanTargets poc ChanTargets ++ rangeChanPocs pocs []

/-- Number of `ExecuteExpression` calls in a trace. -/
def countExecute (cs : List DispatchCall) : Nat :=
  (cs.filter fun c => match c with
    | DispatchCall.ExecuteExpression _ _ => true
    | _ => false).length

/-- Number of `ExecuteExpression` calls for the pair `(target, poc)`. -/
def countExecuteOf (target : String) (poc : Poc) (cs : List DispatchCall) : Nat :=
  cs.count (DispatchCall.ExecuteExpression target poc)

/-- The whole dispatch of `New`: every submitted task is run by a worker
(`wg.Wait()` returns once all have finished); the calls of all workers. -/
def dispatch {ε : Type} (ExecuteExpression : String → Poc → Option ε)
    (ChanPocs : List Poc) (ChanTargets : List String) : List DispatchCall :=
  ((rangeChanPocs ChanPocs ChanTargets).map
    fun tap => (dispatchWorker ExecuteExpression tap).2).flatten

/-! ## The liveness sweeper: `runTargetLivenessCheck` -/

/-- The constant `http.StatusInternalServerError`. -/
def http_StatusInternalServerError : Int := 500

/-- The collaborators of the sweeper.  `σ` is the state they keep (the
registry behind `targetlive.TLive`, the network); every call may change it. -/
structure Collaborators (σ : Type) where
  /-- The call `targetlive.TLive.HandleTargetLive(url, live)`: the value returned and the new
  state. -/
  HandleTargetLive : σ → String → Int → Int × σ
  /-- The call `retryhttpclient.CheckHttpsAndLives(url)`: the string and the status code
  returned, and the new state. -/
  CheckHttpsAndLives : σ → String → (String × Int) × σ
  /-- The test `utils.IsURL(url)`. -/
  IsURL : String → Bool

/-- What a sweeper worker does that is visible outside it. -/
inductive Call where
  /-- A call `targetlive.TLive.HandleTargetLive(url, live)`. -/
  | HandleTargetLive (url : String) (live : Int)
  /-- A call `retryhttpclient.CheckHttpsAndLives(url)`. -/
  | CheckHttpsAndLives (url : String)
  /-- The assignment `options.Targets[key] = url`. -/
  | setTarget (key : Nat) (url : String)
  deriving DecidableEq, Repr

/-- The variables of one run of the sweeper worker (`url`, `statusCode`),
the state of the collaborators, `options.Targets`, and the calls made so far. -/
structure Frame (σ : Type) where
  url : String
  statusCode : Int
  ext : σ
  Targets : List String
  calls : List Call

/-- The result of `targetlive.TLive.HandleTargetLive(url, live)` and the frame after the call. -/
def callHandleTargetLive {σ : Type} (c : Collaborators σ) (live : Int) (f : Frame σ) :
    Int × Frame σ :=
  ((c.HandleTargetLive f.ext f.url live).1,
   { f with ext := (c.HandleTargetLive f.ext f.url live).2,
            calls := f.calls ++ [Call.HandleTargetLive f.url live] })

/-- The statement `url, statusCode = retryhttpclient.CheckHttpsAndLives(url)`. -/
def callCheckHttpsAndLives {σ : Type} (c : Collaborators σ) (f : Frame σ) : Frame σ :=
  { f with url := (c.CheckHttpsAndLives f.ext f.url).1.1,
           statusCode := (c.CheckHttpsAndLives f.ext f.url).1.2,
           ext := (c.CheckHttpsAndLives f.ext f.url).2,
           calls := f.calls ++ [Call.CheckHttpsAndLives f.url] }

/-- The body shared by the two `if` blocks of the worker (lines 207-216 and
224-233): probe, then record the outcome in the registry. -/
def probeAndRecord {σ : Type} (c : Collaborators σ) (f : Frame σ) : Frame σ :=
  let f1 := callCheckHttpsAndLives c f
  if f1.statusCode = -1 ∨ f1.statusCode ≥ http_StatusInternalServerError then
    let f2 : Frame σ :=
      if f1.statusCode = -1 ∧ c.IsURL f1.url = false then
        { f1 with url := "http://" ++ f1.url }
      else f1
    (callHandleTargetLive c 0 f2).2
  else
    (callHandleTargetLive c 1 f1).2

/-- The block `if first && targetlive.TLive.HandleTargetLive(url, -1) != -1 { ... }`. -/
def firstPassBlock {σ : Type} (c : Collaborators σ) (first : Bool) (f : Frame σ) : Frame σ :=
  if first then
    if (callHandleTargetLive c (-1) f).1 ≠ -1 then
      probeAndRecord c (callHandleTargetLive c (-1) f).2
    else (callHandleTargetLive c (-1) f).2
  else f

/-- The block `if !first && targetlive.TLive.HandleTargetLive(url, -1) == 2 { ... }`. -/
def laterPassBlock {σ : Type} (c : Collaborators σ) (first : Bool) (f : Frame σ) : Frame σ :=
  if !first then
    if (callHandleTargetLive c (-1) f).1 = 2 then
      probeAndRecord c (callHandleTargetLive c (-1) f).2
    else (callHandleTargetLive c (-1) f).2
  else f

/-- The block `if !utils.IsURL(url) { m.Lock(); options.Targets[key] = url; m.Unlock() }`. -/
def writeBack {σ : Type} (c : Collaborators σ) (key : Nat) (f : Frame σ) : Frame σ :=
  if c.IsURL f.url = false then
    { f with Targets := f.Targets.set key f.url,
             calls := f.calls ++ [Call.setTarget key f.url] }
  else f

/-- The function given to `ants.NewPoolWithFunc` in `runTargetLivenessCheck`,
run for the task `poc.WaitGroupTask{Value: url, Key: key}` while the variable
`first` has the given value.  The trace of the result starts empty, so it
holds the calls of this task only. -/
def sweepWorker {σ : Type} (c : Collaborators σ) (first : Bool) (key : Nat) (url : String)
    (ext : σ) (Targets : List String) : Frame σ :=
  let f0 : Frame σ := { url := url, statusCode := 0, ext := ext, Targets := Targets, calls := [] }
  writeBack c key (laterPassBlock c first (firstPassBlock c first f0))

/-- Number of calls of the liveness prober in a trace. -/
def countProbe (cs : List Call) : Nat :=
  (cs.filter fun x => match x with
    | Call.CheckHttpsAndLives _ => true
    | _ => false).length

/-- The registry marks of a trace: the calls `HandleTargetLive(url, live)` with `live` other than `-1`
(a call with `-1` is a query). -/
def marks (cs : List Call) : List (String × Int) :=
  cs.filterMap fun x => match x with
    | Call.HandleTargetLive u live => if live = -1 then none else some (u, live)
    | _ => none

/-- The registry queries of a trace: the calls `HandleTargetLive(url, -1)`. -/
def queries (cs : List Call) : List String :=
  cs.filterMap fun x => match x with
    | Call.HandleTargetLive u live => if live = -1 then some u else none
    | _ => none

/-- The writes to `options.Targets` of a trace. -/
def stores (cs : List Call) : List (Nat × String) :=
  cs.filterMap fun x => match x with
    | Call.setTarget k u => some (k, u)
    | _ => none

/-- The state of the sweeper between tasks. -/
structure Sweeper (σ : Type) where
  ext : σ
  Targets : List String
  calls : List Call

/-- One task of a pass: the worker runs on the current state, its calls are appended. -/
def runTask {σ : Type} (c : Collaborators σ) (first : Bool) (s : Sweeper σ)
    (task : Nat × String) : Sweeper σ :=
  let f := sweepWorker c first task.1 task.2 s.ext s.Targets
  { ext := f.ext, Targets := f.Targets, calls := s.calls ++ f.calls }

/-- The tasks of `for k, target := range options.Targets`: position and string,
read from the set as it is when the pass starts (a task writes its own position only). -/
def passTasks (Targets : List String) : List (Nat × String) :=
  (List.range Targets.length).zip Targets

/-- One pass of the `for` loop of `runTargetLivenessCheck`, up to `wg.Wait()`:
the tasks are run one after the other, in the order they are submitted. -/
def sweepPass {σ : Type} (c : Collaborators σ) (first : Bool) (s : Sweeper σ) : Sweeper σ :=
  if s.Targets.length > 0 then
    (passTasks s.Targets).foldl (runTask c first) s
  else s

/-- The first `n` passes of `runTargetLivenessCheck`; `first` is set to `false` after each pass. -/
def sweepLoop {σ : Type} (c : Collaborators σ) : Bool → Nat → Sweeper σ → Sweeper σ
  | _, 0, s => s
  | first, n + 1, s => sweepLoop c false n (sweepPass c first s)

/-- The sweeper `runTargetLivenessCheck(options)`, stopped after `n` passes (the Go loop never ends). -/
def runTargetLivenessCheck {σ : Type} (c : Collaborators σ) (n : Nat) (ext : σ)
    (Targets : List String) : Sweeper σ :=
  sweepLoop c true n { ext := ext, Targets := Targets, calls := [] }

/-- Modelled from the spec: the Target Registry (package `targetlive` is not among the sources).
It maps a target string to a liveness state, `Unprobed` (-1) when nothing was recorded. -/
def Registry : Type := String → Int

/-- Modelled from the spec: the registry before anything is recorded, every target `Unprobed` (-1). -/
def Registry.empty : Registry := fun _ => -1

/-- Modelled from the spec: `Query`, `MarkDead` and `MarkAlive` of the Target Registry behind the
single entry point `HandleTargetLive(target, live)`: with `live = -1` it is the non-mutating
`Query(target)`, with `live = 0` it is `MarkDead(target)`, with `live = 1` it is `MarkAlive(target)`. -/
def Registry.HandleTargetLive (r : Registry) (target : String) (live : Int) : Int × Registry :=
  if live = -1 then (r target, r)
  else (live, fun t => if t = target then live else r t)

/-- The sweeper's collaborators with the registry above, a prober `probe` and a URL test `isURL`. -/
def withRegistry (probe : String → String × Int) (isURL : String → Bool) : Collaborators Registry :=
  { HandleTargetLive := Registry.HandleTargetLive
    CheckHttpsAndLives := fun r url => (probe url, r)
    IsURL := isURL }

/-- A URL test for the examples: the string starts with `http://` or `https://` and holds no
blank. -/
def schemeIsURL (s : String) : Bool :=
  ("http://".data.isPrefixOf s.data || "https://".data.isPrefixOf s.data) &&
    !s.data.contains ' '

/-! ## Notions used to state the properties of the sweeper -/

/-- The frame after the registry query that opens a block of the worker. -/
def afterQuery {σ : Type} (c : Collaborators σ) (url : String) (ext : σ)
    (Targets : List String) : Frame σ :=
  { url := url, statusCode := 0, ext := (c.HandleTargetLive ext url (-1)).2,
    Targets := Targets, calls := [Call.HandleTargetLive url (-1)] }

/-- The string the worker holds after a probe of `url` in state `ext`. -/
def recordedUrl {σ : Type} (c : Collaborators σ) (ext : σ) (url : String) : String :=
  if (c.CheckHttpsAndLives ext url).1.2 = -1 ∧ c.IsURL (c.CheckHttpsAndLives ext url).1.1 = false
  then "http://" ++ (c.CheckHttpsAndLives ext url).1.1
  else (c.CheckHttpsAndLives ext url).1.1

/-- The state recorded for a status code: `0` for `-1` and for `500` and above, else `1`. -/
def recordedLive (statusCode : Int) : Int :=
  if statusCode = -1 ∨ statusCode ≥ 500 then 0 else 1

/-- The strings handed to the liveness prober in a trace, in order. -/
def probed (cs : List Call) : List String :=
  cs.filterMap fun x => match x with
    | Call.CheckHttpsAndLives u => some u
    | _ => none

/-! ## Lemmas on the pacing period -/

theorem tickerPeriod_of_pos (r : Int) (hr : 0 < r) :
    tickerPeriod r = some (time_Second / r) := by
  have h0 : r ≠ 0 := by omega
  have ht : Int.tdiv time_Second r = time_Second / r :=
    Int.tdiv_eq_ediv (by decide) (by omega)
  simp [tickerPeriod, goDiv, h0, ht]

theorem period_mul_le (r : Int) (hr : 0 < r) : time_Second / r * r ≤ time_Second :=
  Int.ediv_mul_le _ (by omega)

theorem lt_period_succ_mul (r : Int) (hr : 0 < r) : time_Second < (time_Second / r + 1) * r :=
  Int.lt_ediv_add_one_mul_self _ hr

theorem period_pos_iff (r : Int) (hr : 0 < r) : 0 < time_Second / r ↔ r ≤ time_Second := by
  constructor
  · intro h
    by_contra hlt
    have : time_Second / r = 0 := Int.ediv_eq_zero_of_lt (by decide) (by omega)
    omega
  · intro h
    have h1 := lt_period_succ_mul r hr
    by_contra hle
    have h2 : time_Second / r + 1 ≤ 1 := by omega
    have h3 : (time_Second / r + 1) * r ≤ 1 * r := Int.mul_le_mul_of_nonneg_right h2 (by omega)
    omega

/-! ## Lemmas on the dispatch loop -/

theorem len_eq_zero_iff (s : String) : len s = 0 ↔ s = "" := by
  cases s with
  | mk cs =>
    cases cs with
    | nil => simp [len, String.utf8ByteSize, String.utf8ByteSize.go]
    | cons a as =>
      have hpos := Char.utf8Size_pos a
      have hne : (String.mk (a :: as)) ≠ "" := by
        intro h
        have := congrArg String.data h
        simp at this
      simp only [len, String.utf8ByteSize, String.utf8ByteSize.go, hne, iff_false]
      omega

theorem len_pos_iff (s : String) : 0 < len s ↔ s ≠ "" := by
  rw [Nat.pos_iff_ne_zero, Ne, len_eq_zero_iff]

theorem rangeChanTargets_eq_map (poc : Poc) (ts : List String) :
    rangeChanTargets poc ts = ts.map fun t => { Target := t, Poc := poc } := by
  induction ts with
  | nil => rfl
  | cons t rest ih => simp [rangeChanTargets, ih]

theorem rangeChanPocs_nil_targets (pocs : List Poc) : rangeChanPocs pocs [] = [] := by
  induction pocs with
  | nil => rfl
  | cons p ps ih => simp [rangeChanPocs, rangeChanTargets, ih]

/-- Every value received from `ChanTargets` is paired with the first check received from
`ChanPocs`; the checks after the first are paired with nothing. -/
theorem rangeChanPocs_cons (poc : Poc) (pocs : List Poc) (ts : List String) :
    rangeChanPocs (poc :: pocs) ts = ts.map fun t => { Target := t, Poc := poc } := by
  simp [rangeChanPocs, rangeChanPocs_nil_targets, rangeChanTargets_eq_map]

/-! ## The dispatch engine: theorems -/

/-- C1: with three checks on `ChanPocs` and four targets on `ChanTargets` the loop of `New`
submits four tasks, not twelve: each target is paired with the first check only, the second
and third checks are never executed, and the engine is invoked four times. -/
theorem dispatch_three_checks_four_targets {ε : Type} (exec : String → Poc → Option ε) :
    rangeChanPocs [⟨"p1"⟩, ⟨"p2"⟩, ⟨"p3"⟩] ["t1", "t2", "t3", "t4"]
        = [⟨"t1", ⟨"p1"⟩⟩, ⟨"t2", ⟨"p1"⟩⟩, ⟨"t3", ⟨"p1"⟩⟩, ⟨"t4", ⟨"p1"⟩⟩] ∧
      countExecute (dispatch exec [⟨"p1"⟩, ⟨"p2"⟩, ⟨"p3"⟩] ["t1", "t2", "t3", "t4"]) = 4 ∧
      countExecuteOf "t1" ⟨"p1"⟩
        (dispatch exec [⟨"p1"⟩, ⟨"p2"⟩, ⟨"p3"⟩] ["t1", "t2", "t3", "t4"]) = 1 ∧
      countExecuteOf "t1" ⟨"p2"⟩
        (dispatch exec [⟨"p1"⟩, ⟨"p2"⟩, ⟨"p3"⟩] ["t1", "t2", "t3", "t4"]) = 0 ∧
      countExecuteOf "t1" ⟨"p3"⟩
        (dispatch exec [⟨"p1"⟩, ⟨"p2"⟩, ⟨"p3"⟩] ["t1", "t2", "t3", "t4"]) = 0 := by
  refine ⟨by decide, rfl, rfl, rfl, rfl⟩

/-- C6: the dispatch worker surfaces no error, and it invokes `ExecuteExpression` exactly once,
on the task's own target and check, when the target and the check id are both non-empty, and
not at all when one of them is empty. -/
theorem dispatchWorker_execute_once {ε : Type} (exec : String → Poc → Option ε)
    (tap : TargetAndPocs) :
    (dispatchWorker exec tap).1 = none ∧
      countExecute (dispatchWorker exec tap).2
        = (if tap.Target ≠ "" ∧ tap.Poc.Id ≠ "" then 1 else 0) ∧
      countExecuteOf tap.Target tap.Poc (dispatchWorker exec tap).2
        = (if tap.Target ≠ "" ∧ tap.Poc.Id ≠ "" then 1 else 0) := by
  by_cases h : tap.Target ≠ "" ∧ tap.Poc.Id ≠ ""
  · have h' : len tap.Target > 0 ∧ len tap.Poc.Id > 0 :=
      ⟨(len_pos_iff _).2 h.1, (len_pos_iff _).2 h.2⟩
    simp [dispatchWorker, h', h, countExecute, countExecuteOf]
  · have h' : ¬ (len tap.Target > 0 ∧ len tap.Poc.Id > 0) := by
      intro hc
      exact h ⟨(len_pos_iff _).1 hc.1, (len_pos_iff _).1 hc.2⟩
    simp only [dispatchWorker, h', h, countExecute, countExecuteOf, if_false]
    simp

/-- C7 (as stated, refuted): for `RateLimit = 3` the period is 333333333 ns, and three such
periods are 999999999 ns, one short of a second. -/
theorem tickerPeriod_three_not_exact :
    tickerPeriod 3 = some 333333333 ∧
      ¬ ∃ p : Int, tickerPeriod 3 = some p ∧ p * 3 = 1000000000 := by
  have h3 : tickerPeriod 3 = some 333333333 := by decide
  refine ⟨h3, ?_⟩
  rintro ⟨p, hp, h⟩
  rw [h3] at hp
  have : p = 333333333 := by
    injection hp with hp
    exact hp.symm
  omega

/-- C7 (amended): for a positive `RateLimit = r` the period is `1000000000 / r` nanoseconds
rounded down: `period * r ≤ 1000000000 < (period + 1) * r`, and `period * r` is exactly
`1000000000` if and only if `r` divides `1000000000`. -/
theorem tickerPeriod_floor (r : Int) (hr : 0 < r) :
    tickerPeriod r = some (time_Second / r) ∧
      time_Second / r * r ≤ 1000000000 ∧
      1000000000 < (time_Second / r + 1) * r ∧
      (time_Second / r * r = 1000000000 ↔ r ∣ 1000000000) := by
  refine ⟨tickerPeriod_of_pos r hr, period_mul_le r hr, lt_period_succ_mul r hr, ?_⟩
  constructor
  · intro h
    exact Dvd.intro_left _ h
  · intro h
    exact Int.ediv_mul_cancel h

/-- The amended C7 at `RateLimit = 5`: the period is 200000000 ns and five periods are a second. -/
theorem tickerPeriod_floor_witness :
    (0 : Int) < 5 ∧ tickerPeriod 5 = some (time_Second / 5) ∧
      time_Second / 5 * 5 ≤ 1000000000 ∧
      1000000000 < (time_Second / 5 + 1) * 5 ∧
      (time_Second / 5 * 5 = 1000000000 ↔ (5 : Int) ∣ 1000000000) :=
  ⟨by decide, tickerPeriod_floor 5 (by decide)⟩

/-- C10 (as stated, refuted): for `RateLimit = 2000000000` the quotient is 0, and creating the
ticker takes the non-positive-interval branch. -/
theorem newRunnerTicker_two_billion :
    (0 : Int) < 2000000000 ∧ tickerPeriod 2000000000 = some 0 ∧
      newRunnerTicker 2000000000 = Except.error "non-positive interval for NewTicker" := by
  refine ⟨by decide, by decide, ?_⟩
  have h : tickerPeriod 2000000000 = some 0 := by decide
  simp [newRunnerTicker, h, NewTicker]

/-- C10 (amended): for a positive `RateLimit = r` the division never divides by zero, and the
period is positive, so that the ticker is created, exactly when `r ≤ 1000000000`. -/
theorem newRunnerTicker_ok_iff (r : Int) (hr : 0 < r) :
    tickerPeriod r = some (time_Second / r) ∧
      (0 < time_Second / r ↔ r ≤ 1000000000) ∧
      (newRunnerTicker r = Except.ok (time_Second / r) ↔ r ≤ 1000000000) := by
  have hp := tickerPeriod_of_pos r hr
  have hi := period_pos_iff r hr
  refine ⟨hp, hi, ?_⟩
  by_cases hle : r ≤ time_Second
  · have hpos := hi.2 hle
    have hn : ¬ (time_Second / r ≤ 0) := by omega
    have hle' : r ≤ 1000000000 := hle
    simp [newRunnerTicker, hp, NewTicker, hn, hle']
  · have hnp : ¬ (0 < time_Second / r) := fun h => hle (hi.1 h)
    have hn : time_Second / r ≤ 0 := by omega
    have hle' : ¬ r ≤ 1000000000 := hle
    simp [newRunnerTicker, hp, NewTicker, hn, hle']

/-- The amended C10 at `RateLimit = 150`. -/
theorem newRunnerTicker_ok_iff_witness :
    (0 : Int) < 150 ∧ tickerPeriod 150 = some (time_Second / 150) ∧
      (0 < time_Second / 150 ↔ (150 : Int) ≤ 1000000000) ∧
      (newRunnerTicker 150 = Except.ok (time_Second / 150) ↔ (150 : Int) ≤ 1000000000) :=
  ⟨by decide, newRunnerTicker_ok_iff 150 (by decide)⟩

/-! ## Lemmas on the sweeper worker -/

theorem marks_append (a b : List Call) : marks (a ++ b) = marks a ++ marks b := by
  simp [marks, List.filterMap_append]

theorem queries_append (a b : List Call) : queries (a ++ b) = queries a ++ queries b := by
  simp [queries, List.filterMap_append]

theorem countProbe_append (a b : List Call) :
    countProbe (a ++ b) = countProbe a + countProbe b := by
  simp [countProbe, List.filter_append]

theorem probeAndRecord_url {σ : Type} (c : Collaborators σ) (f : Frame σ) :
    (probeAndRecord c f).url = recordedUrl c f.ext f.url := by
  simp only [probeAndRecord, callHandleTargetLive, callCheckHttpsAndLives, recordedUrl]
  split_ifs with h1 h2 h3 <;> simp_all

theorem probeAndRecord_statusCode {σ : Type} (c : Collaborators σ) (f : Frame σ) :
    (probeAndRecord c f).statusCode = (c.CheckHttpsAndLives f.ext f.url).1.2 := by
  simp only [probeAndRecord, callHandleTargetLive, callCheckHttpsAndLives]
  split_ifs <;> rfl

theorem probeAndRecord_Targets {σ : Type} (c : Collaborators σ) (f : Frame σ) :
    (probeAndRecord c f).Targets = f.Targets := by
  simp only [probeAndRecord, callHandleTargetLive, callCheckHttpsAndLives]
  split_ifs <;> rfl

theorem probeAndRecord_calls {σ : Type} (c : Collaborators σ) (f : Frame σ) :
    (probeAndRecord c f).calls = f.calls ++
      [Call.CheckHttpsAndLives f.url,
       Call.HandleTargetLive (recordedUrl c f.ext f.url)
         (recordedLive (c.CheckHttpsAndLives f.ext f.url).1.2)] := by
  simp only [probeAndRecord, callHandleTargetLive, callCheckHttpsAndLives, recordedUrl,
    recordedLive, http_StatusInternalServerError]
  split_ifs with h1 h2 h3 <;> simp_all

theorem probeAndRecord_ext {σ : Type} (c : Collaborators σ) (f : Frame σ) :
    (probeAndRecord c f).ext =
      (c.HandleTargetLive (c.CheckHttpsAndLives f.ext f.url).2 (recordedUrl c f.ext f.url)
        (recordedLive (c.CheckHttpsAndLives f.ext f.url).1.2)).2 := by
  simp only [probeAndRecord, callHandleTargetLive, callCheckHttpsAndLives, recordedUrl,
    recordedLive, http_StatusInternalServerError]
  split_ifs with h1 h2 h3 <;> simp_all

theorem sweepWorker_of_probe {σ : Type} (c : Collaborators σ) (first : Bool) (key : Nat)
    (url : String) (ext : σ) (Targets : List String)
    (h : (first = true ∧ (c.HandleTargetLive ext url (-1)).1 ≠ -1) ∨
         (first = false ∧ (c.HandleTargetLive ext url (-1)).1 = 2)) :
    sweepWorker c first key url ext Targets =
      writeBack c key (probeAndRecord c (afterQuery c url ext Targets)) := by
  rcases h with ⟨hf, hq⟩ | ⟨hf, hq⟩ <;> subst hf <;>
    simp [sweepWorker, firstPassBlock, laterPassBlock, callHandleTargetLive, afterQuery, hq]

theorem sweepWorker_of_skip {σ : Type} (c : Collaborators σ) (first : Bool) (key : Nat)
    (url : String) (ext : σ) (Targets : List String)
    (h : (first = true ∧ (c.HandleTargetLive ext url (-1)).1 = -1) ∨
         (first = false ∧ (c.HandleTargetLive ext url (-1)).1 ≠ 2)) :
    sweepWorker c first key url ext Targets =
      writeBack c key (afterQuery c url ext Targets) := by
  rcases h with ⟨hf, hq⟩ | ⟨hf, hq⟩ <;> subst hf <;>
    simp [sweepWorker, firstPassBlock, laterPassBlock, callHandleTargetLive, afterQuery, hq]

theorem writeBack_url {σ : Type} (c : Collaborators σ) (key : Nat) (f : Frame σ) :
    (writeBack c key f).url = f.url := by
  simp only [writeBack]; split_ifs <;> rfl

theorem writeBack_statusCode {σ : Type} (c : Collaborators σ) (key : Nat) (f : Frame σ) :
    (writeBack c key f).statusCode = f.statusCode := by
  simp only [writeBack]; split_ifs <;> rfl

theorem writeBack_ext {σ : Type} (c : Collaborators σ) (key : Nat) (f : Frame σ) :
    (writeBack c key f).ext = f.ext := by
  simp only [writeBack]; split_ifs <;> rfl

theorem writeBack_calls {σ : Type} (c : Collaborators σ) (key : Nat) (f : Frame σ) :
    (writeBack c key f).calls =
      f.calls ++ (if c.IsURL f.url = false then [Call.setTarget key f.url] else []) := by
  simp only [writeBack]; split_ifs <;> simp

theorem writeBack_Targets {σ : Type} (c : Collaborators σ) (key : Nat) (f : Frame σ) :
    (writeBack c key f).Targets =
      (if c.IsURL f.url = false then f.Targets.set key f.url else f.Targets) := by
  simp only [writeBack]; split_ifs <;> rfl

theorem sweepWorker_calls_of_probe {σ : Type} (c : Collaborators σ) (first : Bool) (key : Nat)
    (url : String) (ext : σ) (Targets : List String)
    (h : (first = true ∧ (c.HandleTargetLive ext url (-1)).1 ≠ -1) ∨
         (first = false ∧ (c.HandleTargetLive ext url (-1)).1 = 2)) :
    (sweepWorker c first key url ext Targets).calls =
      [Call.HandleTargetLive url (-1), Call.CheckHttpsAndLives url,
       Call.HandleTargetLive (recordedUrl c (c.HandleTargetLive ext url (-1)).2 url)
         (recordedLive (c.CheckHttpsAndLives (c.HandleTargetLive ext url (-1)).2 url).1.2)] ++
      (if c.IsURL (recordedUrl c (c.HandleTargetLive ext url (-1)).2 url) = false
        then [Call.setTarget key (recordedUrl c (c.HandleTargetLive ext url (-1)).2 url)]
        else []) := by
  rw [sweepWorker_of_probe c first key url ext Targets h, writeBack_calls, probeAndRecord_calls,
    probeAndRecord_url]
  simp [afterQuery]

theorem sweepWorker_url_of_probe {σ : Type} (c : Collaborators σ) (first : Bool) (key : Nat)
    (url : String) (ext : σ) (Targets : List String)
    (h : (first = true ∧ (c.HandleTargetLive ext url (-1)).1 ≠ -1) ∨
         (first = false ∧ (c.HandleTargetLive ext url (-1)).1 = 2)) :
    (sweepWorker c first key url ext Targets).url =
      recordedUrl c (c.HandleTargetLive ext url (-1)).2 url := by
  rw [sweepWorker_of_probe c first key url ext Targets h, writeBack_url, probeAndRecord_url]
  simp [afterQuery]

theorem sweepWorker_statusCode_of_probe {σ : Type} (c : Collaborators σ) (first : Bool)
    (key : Nat) (url : String) (ext : σ) (Targets : List String)
    (h : (first = true ∧ (c.HandleTargetLive ext url (-1)).1 ≠ -1) ∨
         (first = false ∧ (c.HandleTargetLive ext url (-1)).1 = 2)) :
    (sweepWorker c first key url ext Targets).statusCode =
      (c.CheckHttpsAndLives (c.HandleTargetLive ext url (-1)).2 url).1.2 := by
  rw [sweepWorker_of_probe c first key url ext Targets h, writeBack_statusCode,
    probeAndRecord_statusCode]
  simp [afterQuery]

theorem sweepWorker_calls_of_skip {σ : Type} (c : Collaborators σ) (first : Bool) (key : Nat)
    (url : String) (ext : σ) (Targets : List String)
    (h : (first = true ∧ (c.HandleTargetLive ext url (-1)).1 = -1) ∨
         (first = false ∧ (c.HandleTargetLive ext url (-1)).1 ≠ 2)) :
    (sweepWorker c first key url ext Targets).calls =
      [Call.HandleTargetLive url (-1)] ++
      (if c.IsURL url = false then [Call.setTarget key url] else []) := by
  rw [sweepWorker_of_skip c first key url ext Targets h, writeBack_calls]
  simp [afterQuery]

/-- The worker probes or it does not, according to `first` and the answer to its query. -/
theorem probe_or_skip {σ : Type} (c : Collaborators σ) (first : Bool) (url : String) (ext : σ) :
    ((first = true ∧ (c.HandleTargetLive ext url (-1)).1 ≠ -1) ∨
        (first = false ∧ (c.HandleTargetLive ext url (-1)).1 = 2)) ∨
      ((first = true ∧ (c.HandleTargetLive ext url (-1)).1 = -1) ∨
        (first = false ∧ (c.HandleTargetLive ext url (-1)).1 ≠ 2)) := by
  cases first <;> by_cases h1 : (c.HandleTargetLive ext url (-1)).1 = -1 <;>
    by_cases h2 : (c.HandleTargetLive ext url (-1)).1 = 2 <;> simp [h1, h2]

theorem recordedLive_cases (statusCode : Int) :
    recordedLive statusCode = 0 ∨ recordedLive statusCode = 1 := by
  unfold recordedLive
  split_ifs <;> simp

theorem recordedLive_ne_query (statusCode : Int) : recordedLive statusCode ≠ -1 := by
  rcases recordedLive_cases statusCode with h | h <;> rw [h] <;> decide

/-! ## The liveness sweeper: theorems on one task -/

/-- C2 (as stated, refuted): on the first pass a target for which the registry answers `-1`
(Unprobed) is not probed, and a target for which it answers `1` (Alive) is probed once. -/
theorem first_pass_unprobed_is_skipped :
    (Registry.HandleTargetLive Registry.empty "a" (-1)).1 = -1 ∧
      countProbe (sweepWorker (withRegistry (fun u => ("http://" ++ u, 200)) schemeIsURL)
        true 0 "a" Registry.empty ["a"]).calls = 0 ∧
      (Registry.HandleTargetLive (Registry.HandleTargetLive Registry.empty "a" 1).2 "a" (-1)).1
        = 1 ∧
      countProbe (sweepWorker (withRegistry (fun u => ("http://" ++ u, 200)) schemeIsURL)
        true 0 "a" (Registry.HandleTargetLive Registry.empty "a" 1).2 ["a"]).calls = 1 := by
  refine ⟨by decide, by decide, by decide, by decide⟩

/-- C2 (amended): on the first pass the worker queries the registry once, for its target, and
calls the prober exactly once, on that target, when the answer is anything other than `-1`
(so for Dead 0, Alive 1 and NeedsRecheck 2), and not at all when the answer is `-1`
(Unprobed). -/
theorem sweepWorker_first_pass_probe {σ : Type} (c : Collaborators σ) (key : Nat) (url : String)
    (ext : σ) (Targets : List String) :
    queries (sweepWorker c true key url ext Targets).calls = [url] ∧
      countProbe (sweepWorker c true key url ext Targets).calls
        = (if (c.HandleTargetLive ext url (-1)).1 = -1 then 0 else 1) ∧
      probed (sweepWorker c true key url ext Targets).calls
        = (if (c.HandleTargetLive ext url (-1)).1 = -1 then [] else [url]) := by
  by_cases hq : (c.HandleTargetLive ext url (-1)).1 = -1
  · rw [sweepWorker_calls_of_skip c true key url ext Targets (Or.inl ⟨rfl, hq⟩)]
    simp only [hq, if_true]
    refine ⟨?_, ?_, ?_⟩ <;> split_ifs <;> simp [queries, countProbe, probed]
  · rw [sweepWorker_calls_of_probe c true key url ext Targets (Or.inl ⟨rfl, hq⟩)]
    simp only [hq, if_false]
    have hl := recordedLive_ne_query
      (c.CheckHttpsAndLives (c.HandleTargetLive ext url (-1)).2 url).1.2
    refine ⟨?_, ?_, ?_⟩ <;> split_ifs <;> simp [queries, countProbe, probed, hl]

/-- C3: on a pass after the first the worker queries the registry once, for its target; it
calls the prober once, on that target, when the answer is `2` (NeedsRecheck), and for every
other answer it calls neither the prober nor a registry mark. -/
theorem sweepWorker_later_pass_probe {σ : Type} (c : Collaborators σ) (key : Nat) (url : String)
    (ext : σ) (Targets : List String) :
    queries (sweepWorker c false key url ext Targets).calls = [url] ∧
      countProbe (sweepWorker c false key url ext Targets).calls
        = (if (c.HandleTargetLive ext url (-1)).1 = 2 then 1 else 0) ∧
      probed (sweepWorker c false key url ext Targets).calls
        = (if (c.HandleTargetLive ext url (-1)).1 = 2 then [url] else []) ∧
      (marks (sweepWorker c false key url ext Targets).calls).length
        = (if (c.HandleTargetLive ext url (-1)).1 = 2 then 1 else 0) := by
  by_cases hq : (c.HandleTargetLive ext url (-1)).1 = 2
  · rw [sweepWorker_calls_of_probe c false key url ext Targets (Or.inr ⟨rfl, hq⟩)]
    simp only [hq, if_true]
    have hl := recordedLive_ne_query
      (c.CheckHttpsAndLives (c.HandleTargetLive ext url (-1)).2 url).1.2
    refine ⟨?_, ?_, ?_, ?_⟩ <;> split_ifs <;> simp [queries, countProbe, probed, marks, hl]
  · rw [sweepWorker_calls_of_skip c false key url ext Targets (Or.inr ⟨rfl, hq⟩)]
    simp only [hq, if_false]
    refine ⟨?_, ?_, ?_, ?_⟩ <;> split_ifs <;> simp [queries, countProbe, probed, marks]

theorem sweepWorker_Targets {σ : Type} (c : Collaborators σ) (first : Bool) (key : Nat)
    (url : String) (ext : σ) (ts : List String) :
    (sweepWorker c first key url ext ts).Targets =
      (if c.IsURL (sweepWorker c first key url ext ts).url = false
        then ts.set key (sweepWorker c first key url ext ts).url else ts) := by
  rcases probe_or_skip c first url ext with h | h
  · rw [sweepWorker_of_probe c first key url ext ts h, writeBack_Targets, writeBack_url,
      probeAndRecord_Targets]
    simp [afterQuery]
  · rw [sweepWorker_of_skip c first key url ext ts h, writeBack_Targets, writeBack_url]
    simp [afterQuery]

theorem countProbe_of_skip {σ : Type} (c : Collaborators σ) (first : Bool) (key : Nat)
    (url : String) (ext : σ) (Targets : List String)
    (h : (first = true ∧ (c.HandleTargetLive ext url (-1)).1 = -1) ∨
         (first = false ∧ (c.HandleTargetLive ext url (-1)).1 ≠ 2)) :
    countProbe (sweepWorker c first key url ext Targets).calls = 0 := by
  rw [sweepWorker_calls_of_skip c first key url ext Targets h]
  split_ifs <;> simp [countProbe]

theorem marks_of_probe_calls (url ru w : String) (rl : Int) (hrl : rl ≠ -1) (b : Bool)
    (key : Nat) :
    marks ([Call.HandleTargetLive url (-1), Call.CheckHttpsAndLives url,
      Call.HandleTargetLive ru rl] ++ (if b = false then [Call.setTarget key w] else []))
      = [(ru, rl)] := by
  cases b <;> simp [marks, hrl]

theorem http_prefix_append (u : String) : "http://".data <+: ("http://" ++ u).data := by
  rw [String.data_append]
  exact List.prefix_append _ _

/-- C4: when the worker probes its target (on either pass) it probes once and then makes exactly
one registry mark, for the string it holds afterwards: Dead (0) when the status code returned
by the prober is `-1` or is `500` or more, Alive (1) for every other status code. -/
theorem sweepWorker_marks_once {σ : Type} (c : Collaborators σ) (first : Bool) (key : Nat)
    (url : String) (ext : σ) (Targets : List String)
    (hprobe : 0 < countProbe (sweepWorker c first key url ext Targets).calls) :
    countProbe (sweepWorker c first key url ext Targets).calls = 1 ∧
      (sweepWorker c first key url ext Targets).statusCode
        = (c.CheckHttpsAndLives (c.HandleTargetLive ext url (-1)).2 url).1.2 ∧
      marks (sweepWorker c first key url ext Targets).calls
        = [((sweepWorker c first key url ext Targets).url,
            if (sweepWorker c first key url ext Targets).statusCode = -1 ∨
                (sweepWorker c first key url ext Targets).statusCode ≥ 500 then 0 else 1)] := by
  rcases probe_or_skip c first url ext with h | h
  · have hl := recordedLive_ne_query
      (c.CheckHttpsAndLives (c.HandleTargetLive ext url (-1)).2 url).1.2
    rw [sweepWorker_statusCode_of_probe c first key url ext Targets h,
      sweepWorker_url_of_probe c first key url ext Targets h,
      sweepWorker_calls_of_probe c first key url ext Targets h]
    refine ⟨?_, rfl, ?_⟩
    · split_ifs <;> simp [countProbe]
    · rw [marks_of_probe_calls _ _ _ _ hl]
      rfl
  · rw [countProbe_of_skip c first key url ext Targets h] at hprobe
    exact absurd hprobe (by decide)

/-- An instance of C4: a later pass, a target held as NeedsRecheck, the prober answers 503: one
mark, Dead. -/
theorem sweepWorker_marks_once_witness :
    0 < countProbe (sweepWorker (withRegistry (fun u => ("https://" ++ u, 503)) schemeIsURL)
        false 0 "a" (Registry.HandleTargetLive Registry.empty "a" 2).2 ["a"]).calls ∧
      marks (sweepWorker (withRegistry (fun u => ("https://" ++ u, 503)) schemeIsURL)
        false 0 "a" (Registry.HandleTargetLive Registry.empty "a" 2).2 ["a"]).calls
        = [((sweepWorker (withRegistry (fun u => ("https://" ++ u, 503)) schemeIsURL)
              false 0 "a" (Registry.HandleTargetLive Registry.empty "a" 2).2 ["a"]).url,
            if (sweepWorker (withRegistry (fun u => ("https://" ++ u, 503)) schemeIsURL)
                false 0 "a" (Registry.HandleTargetLive Registry.empty "a" 2).2 ["a"]).statusCode
                  = -1 ∨
                (sweepWorker (withRegistry (fun u => ("https://" ++ u, 503)) schemeIsURL)
                  false 0 "a" (Registry.HandleTargetLive Registry.empty "a" 2).2
                  ["a"]).statusCode ≥ 500 then 0 else 1)] :=
  ⟨by decide,
   (sweepWorker_marks_once (withRegistry (fun u => ("https://" ++ u, 503)) schemeIsURL)
      false 0 "a" (Registry.HandleTargetLive Registry.empty "a" 2).2 ["a"] (by decide)).2.2⟩

/-- C5 (as stated, refuted): the target `a` is not URL-shaped, it is probed on the first pass
and the prober returns the URL-shaped string `https://a` with `-1`.  The test on line 210 is
made on the returned string, so no prefix is added: the string the worker ends with, and the one
marked Dead, is `https://a`, which does not begin with `http://`, and nothing is written to
`options.Targets`. -/
theorem unreachable_url_shaped_return_not_prefixed :
    schemeIsURL "a" = false ∧
      0 < countProbe (sweepWorker (withRegistry (fun u => ("https://" ++ u, -1)) schemeIsURL)
        true 0 "a" (Registry.HandleTargetLive Registry.empty "a" 1).2 ["a"]).calls ∧
      (sweepWorker (withRegistry (fun u => ("https://" ++ u, -1)) schemeIsURL)
        true 0 "a" (Registry.HandleTargetLive Registry.empty "a" 1).2 ["a"]).statusCode = -1 ∧
      (sweepWorker (withRegistry (fun u => ("https://" ++ u, -1)) schemeIsURL)
        true 0 "a" (Registry.HandleTargetLive Registry.empty "a" 1).2 ["a"]).url
          = "https://a" ∧
      "http://".data.isPrefixOf "https://a".data = false ∧
      marks (sweepWorker (withRegistry (fun u => ("https://" ++ u, -1)) schemeIsURL)
        true 0 "a" (Registry.HandleTargetLive Registry.empty "a" 1).2 ["a"]).calls
          = [("https://a", 0)] ∧
      stores (sweepWorker (withRegistry (fun u => ("https://" ++ u, -1)) schemeIsURL)
        true 0 "a" (Registry.HandleTargetLive Registry.empty "a" 1).2 ["a"]).calls = [] ∧
      (sweepWorker (withRegistry (fun u => ("https://" ++ u, -1)) schemeIsURL)
        true 0 "a" (Registry.HandleTargetLive Registry.empty "a" 1).2 ["a"]).Targets
          = ["a"] := by
  refine ⟨by decide, by decide, by decide, by decide, by decide, by decide, by decide,
    by decide⟩

/-- C5 (amended): when the worker probes its target and the prober returns `-1` together with
a string that is not URL-shaped, the string the worker ends with is `http://` followed by the
returned string, so it begins with `http://`; the registry is marked exactly once, Dead (0),
for that string; and that string is written to `options.Targets`, at the position of the task,
exactly when it is still not URL-shaped (otherwise the target set is left as it is). -/
theorem sweepWorker_unreachable_returned_not_url {σ : Type} (c : Collaborators σ) (first : Bool)
    (key : Nat) (url : String) (ext : σ) (Targets : List String)
    (hprobe : 0 < countProbe (sweepWorker c first key url ext Targets).calls)
    (hstatus : (c.CheckHttpsAndLives (c.HandleTargetLive ext url (-1)).2 url).1.2 = -1)
    (hret : c.IsURL (c.CheckHttpsAndLives (c.HandleTargetLive ext url (-1)).2 url).1.1
      = false) :
    (sweepWorker c first key url ext Targets).url
        = "http://" ++ (c.CheckHttpsAndLives (c.HandleTargetLive ext url (-1)).2 url).1.1 ∧
      "http://".data <+: (sweepWorker c first key url ext Targets).url.data ∧
      marks (sweepWorker c first key url ext Targets).calls
        = [((sweepWorker c first key url ext Targets).url, 0)] ∧
      stores (sweepWorker c first key url ext Targets).calls
        = (if c.IsURL (sweepWorker c first key url ext Targets).url = false
            then [(key, (sweepWorker c first key url ext Targets).url)] else []) ∧
      (sweepWorker c first key url ext Targets).Targets
        = (if c.IsURL (sweepWorker c first key url ext Targets).url = false
            then Targets.set key (sweepWorker c first key url ext Targets).url
            else Targets) := by
  rcases probe_or_skip c first url ext with h | h
  · have hru : recordedUrl c (c.HandleTargetLive ext url (-1)).2 url
        = "http://" ++ (c.CheckHttpsAndLives (c.HandleTargetLive ext url (-1)).2 url).1.1 := by
      simp [recordedUrl, hstatus, hret]
    have hurl := sweepWorker_url_of_probe c first key url ext Targets h
    rw [hru] at hurl
    have hcalls := sweepWorker_calls_of_probe c first key url ext Targets h
    rw [hru] at hcalls
    refine ⟨hurl, ?_, ?_, ?_, sweepWorker_Targets c first key url ext Targets⟩
    · rw [hurl]
      exact http_prefix_append _
    · rw [hcalls, hurl]
      split_ifs <;> simp [marks, recordedLive, hstatus]
    · rw [hcalls, hurl]
      split_ifs <;> simp [stores]
  · rw [countProbe_of_skip c first key url ext Targets h] at hprobe
    exact absurd hprobe (by decide)

/-- An instance of the amended C5: the target `b c` is probed and the prober answers `-1`
with the string `b c`, which is not URL-shaped: the worker ends with `http://b c`, marks it
Dead and, as it is still not URL-shaped, writes it at position 1 of the target set. -/
theorem sweepWorker_unreachable_returned_not_url_witness :
    0 < countProbe (sweepWorker (withRegistry (fun u => (u, -1)) schemeIsURL) true 1 "b c"
        (Registry.HandleTargetLive Registry.empty "b c" 1).2 ["a", "b c"]).calls ∧
      schemeIsURL "b c" = false ∧
      marks (sweepWorker (withRegistry (fun u => (u, -1)) schemeIsURL) true 1 "b c"
        (Registry.HandleTargetLive Registry.empty "b c" 1).2 ["a", "b c"]).calls
        = [("http://b c", 0)] ∧
      stores (sweepWorker (withRegistry (fun u => (u, -1)) schemeIsURL) true 1 "b c"
        (Registry.HandleTargetLive Registry.empty "b c" 1).2 ["a", "b c"]).calls
        = [(1, "http://b c")] ∧
      (sweepWorker (withRegistry (fun u => (u, -1)) schemeIsURL) true 1 "b c"
        (Registry.HandleTargetLive Registry.empty "b c" 1).2 ["a", "b c"]).url
        = "http://" ++ "b c" :=
  ⟨by decide, by decide, by decide, by decide,
   (sweepWorker_unreachable_returned_not_url (withRegistry (fun u => (u, -1)) schemeIsURL)
      true 1 "b c" (Registry.HandleTargetLive Registry.empty "b c" 1).2 ["a", "b c"]
      (by decide) (by decide) (by decide)).1⟩

/-- C8: a task for position `key` of the target set leaves the length of the set and every
other position as they were; position `key` holds the string the worker ends with when that
string is not URL-shaped, and is unchanged when it is URL-shaped. -/
theorem sweepWorker_targets_frame {σ : Type} (c : Collaborators σ) (first : Bool) (key : Nat)
    (url : String) (ext : σ) (ts : List String) (hkey : key < ts.length) :
    (sweepWorker c first key url ext ts).Targets.length = ts.length ∧
      (∀ j, j ≠ key → (sweepWorker c first key url ext ts).Targets[j]? = ts[j]?) ∧
      (sweepWorker c first key url ext ts).Targets[key]?
        = (if c.IsURL (sweepWorker c first key url ext ts).url = false
            then some (sweepWorker c first key url ext ts).url else ts[key]?) := by
  rw [sweepWorker_Targets]
  by_cases hu : c.IsURL (sweepWorker c first key url ext ts).url = false
  · simp only [hu, if_true]
    refine ⟨by simp, ?_, ?_⟩
    · intro j hj
      simp [List.getElem?_set, Ne.symm hj]
    · simp [List.getElem?_set, hkey]
  · simp [hu]

/-- An instance of C8: the task for position 1 rewrites that position and nothing else. -/
theorem sweepWorker_targets_frame_witness :
    1 < ["a", "b c"].length ∧
      (sweepWorker (withRegistry (fun u => (u, -1)) schemeIsURL) true 1 "b c"
        (Registry.HandleTargetLive Registry.empty "b c" 1).2 ["a", "b c"]).Targets
          = ["a", "http://b c"] ∧
      (sweepWorker (withRegistry (fun u => (u, -1)) schemeIsURL) true 1 "b c"
        (Registry.HandleTargetLive Registry.empty "b c" 1).2 ["a", "b c"]).Targets.length
          = ["a", "b c"].length :=
  ⟨by decide, by decide,
   (sweepWorker_targets_frame (withRegistry (fun u => (u, -1)) schemeIsURL) true 1 "b c"
      (Registry.HandleTargetLive Registry.empty "b c" 1).2 ["a", "b c"] (by decide)).1⟩

/-! ## The liveness sweeper: one pass over the target set -/

theorem probed_append (a b : List Call) : probed (a ++ b) = probed a ++ probed b := by
  simp [probed, List.filterMap_append]

theorem countProbe_eq_length_probed (cs : List Call) : countProbe cs = (probed cs).length := by
  induction cs with
  | nil => rfl
  | cons x xs ih =>
    have h1 : countProbe (x :: xs) = countProbe [x] + countProbe xs :=
      countProbe_append [x] xs
    have h2 : probed (x :: xs) = probed [x] ++ probed xs := probed_append [x] xs
    rw [h1, h2, List.length_append, ih]
    cases x <;> simp [countProbe, probed]

theorem sweepWorker_ext_of_skip {σ : Type} (c : Collaborators σ) (first : Bool) (key : Nat)
    (url : String) (ext : σ) (Targets : List String)
    (h : (first = true ∧ (c.HandleTargetLive ext url (-1)).1 = -1) ∨
         (first = false ∧ (c.HandleTargetLive ext url (-1)).1 ≠ 2)) :
    (sweepWorker c first key url ext Targets).ext = (c.HandleTargetLive ext url (-1)).2 := by
  rw [sweepWorker_of_skip c first key url ext Targets h, writeBack_ext]
  simp [afterQuery]

theorem sweepWorker_ext_of_probe {σ : Type} (c : Collaborators σ) (first : Bool) (key : Nat)
    (url : String) (ext : σ) (Targets : List String)
    (h : (first = true ∧ (c.HandleTargetLive ext url (-1)).1 ≠ -1) ∨
         (first = false ∧ (c.HandleTargetLive ext url (-1)).1 = 2)) :
    (sweepWorker c first key url ext Targets).ext =
      (c.HandleTargetLive (c.CheckHttpsAndLives (c.HandleTargetLive ext url (-1)).2 url).2
        (recordedUrl c (c.HandleTargetLive ext url (-1)).2 url)
        (recordedLive (c.CheckHttpsAndLives (c.HandleTargetLive ext url (-1)).2 url).1.2)).2 := by
  rw [sweepWorker_of_probe c first key url ext Targets h, writeBack_ext, probeAndRecord_ext]
  simp [afterQuery]

theorem withRegistry_query (probe : String → String × Int) (isURL : String → Bool)
    (r : Registry) (url : String) :
    (withRegistry probe isURL).HandleTargetLive r url (-1) = (r url, r) := by
  simp [withRegistry, Registry.HandleTargetLive]

theorem withRegistry_probe (probe : String → String × Int) (isURL : String → Bool)
    (r : Registry) (url : String) :
    (withRegistry probe isURL).CheckHttpsAndLives r url = (probe url, r) := rfl

theorem withRegistry_mark (probe : String → String × Int) (isURL : String → Bool)
    (r : Registry) (url : String) (live : Int) (hl : live ≠ -1) (t : String) :
    ((withRegistry probe isURL).HandleTargetLive r url live).2 t
      = if t = url then live else r t := by
  simp [withRegistry, Registry.HandleTargetLive, hl]

/-- A task of the first pass whose target the registry holds as Unprobed: the registry is left
as it is, the only calls are the query and possibly the write to the target set. -/
theorem runTask_first_unprobed (probe : String → String × Int) (isURL : String → Bool)
    (s : Sweeper Registry) (task : Nat × String) (h : s.ext task.2 = -1) :
    (runTask (withRegistry probe isURL) true s task).ext = s.ext ∧
      countProbe (runTask (withRegistry probe isURL) true s task).calls = countProbe s.calls ∧
      marks (runTask (withRegistry probe isURL) true s task).calls = marks s.calls ∧
      queries (runTask (withRegistry probe isURL) true s task).calls
        = queries s.calls ++ [task.2] := by
  have hq : ((withRegistry probe isURL).HandleTargetLive s.ext task.2 (-1)).1 = -1 := by
    rw [withRegistry_query]; exact h
  have hskip : (true = true ∧ ((withRegistry probe isURL).HandleTargetLive s.ext task.2 (-1)).1
        = -1) ∨ (true = false ∧
      ((withRegistry probe isURL).HandleTargetLive s.ext task.2 (-1)).1 ≠ 2) :=
    Or.inl ⟨rfl, hq⟩
  simp only [runTask]
  rw [sweepWorker_ext_of_skip _ true task.1 task.2 s.ext s.Targets hskip,
    sweepWorker_calls_of_skip _ true task.1 task.2 s.ext s.Targets hskip, withRegistry_query,
    countProbe_append, marks_append, queries_append]
  refine ⟨rfl, ?_, ?_, ?_⟩ <;> split_ifs <;> simp [countProbe, marks, queries]

theorem foldl_first_unprobed (probe : String → String × Int) (isURL : String → Bool)
    (tasks : List (Nat × String)) :
    ∀ s : Sweeper Registry, (∀ task ∈ tasks, s.ext task.2 = -1) →
      (tasks.foldl (runTask (withRegistry probe isURL) true) s).ext = s.ext ∧
        countProbe (tasks.foldl (runTask (withRegistry probe isURL) true) s).calls
          = countProbe s.calls ∧
        marks (tasks.foldl (runTask (withRegistry probe isURL) true) s).calls = marks s.calls ∧
        queries (tasks.foldl (runTask (withRegistry probe isURL) true) s).calls
          = queries s.calls ++ tasks.map Prod.snd := by
  induction tasks with
  | nil => intro s _; simp
  | cons task rest ih =>
    intro s h
    obtain ⟨h1, h2, h3, h4⟩ :=
      runTask_first_unprobed probe isURL s task (h task (List.mem_cons_self _ _))
    have hrest : ∀ t ∈ rest, (runTask (withRegistry probe isURL) true s task).ext t.2 = -1 := by
      intro t ht
      rw [h1]
      exact h t (List.mem_cons_of_mem _ ht)
    obtain ⟨g1, g2, g3, g4⟩ := ih _ hrest
    simp only [List.foldl_cons, List.map_cons]
    refine ⟨g1.trans h1, g2.trans h2, g3.trans h3, ?_⟩
    rw [g4, h4, List.append_assoc]
    rfl

theorem passTasks_snd (ts : List String) : (passTasks ts).map Prod.snd = ts := by
  unfold passTasks
  exact List.map_snd_zip _ _ (by simp)

theorem mem_passTasks_snd (ts : List String) (task : Nat × String) (h : task ∈ passTasks ts) :
    task.2 ∈ ts := by
  rw [← passTasks_snd ts]
  exact List.mem_map_of_mem Prod.snd h

/-- A task of the first pass whose target the registry does not hold as Unprobed: the target
is probed, and the string recorded is marked Dead or Alive. -/
theorem runTask_first_known (probe : String → String × Int) (isURL : String → Bool)
    (s : Sweeper Registry) (task : Nat × String) (h : s.ext task.2 ≠ -1) :
    ∃ ru rl, (rl = 0 ∨ rl = 1) ∧
      (∀ t, (runTask (withRegistry probe isURL) true s task).ext t
        = if t = ru then rl else s.ext t) ∧
      marks (runTask (withRegistry probe isURL) true s task).calls
        = marks s.calls ++ [(ru, rl)] ∧
      probed (runTask (withRegistry probe isURL) true s task).calls
        = probed s.calls ++ [task.2] := by
  have hq : ((withRegistry probe isURL).HandleTargetLive s.ext task.2 (-1)).1 ≠ -1 := by
    rw [withRegistry_query]; exact h
  have hgo : (true = true ∧ ((withRegistry probe isURL).HandleTargetLive s.ext task.2 (-1)).1
        ≠ -1) ∨ (true = false ∧
      ((withRegistry probe isURL).HandleTargetLive s.ext task.2 (-1)).1 = 2) :=
    Or.inl ⟨rfl, hq⟩
  refine ⟨recordedUrl (withRegistry probe isURL) s.ext task.2, recordedLive (probe task.2).2,
    recordedLive_cases _, ?_, ?_, ?_⟩
  · intro t
    simp only [runTask]
    rw [sweepWorker_ext_of_probe _ true task.1 task.2 s.ext s.Targets hgo]
    simp only [withRegistry_query, withRegistry_probe]
    exact withRegistry_mark probe isURL s.ext _ _ (recordedLive_ne_query _) t
  · simp only [runTask]
    rw [sweepWorker_calls_of_probe _ true task.1 task.2 s.ext s.Targets hgo, marks_append]
    simp only [withRegistry_query, withRegistry_probe]
    rw [marks_of_probe_calls _ _ _ _ (recordedLive_ne_query _)]
  · simp only [runTask]
    rw [sweepWorker_calls_of_probe _ true task.1 task.2 s.ext s.Targets hgo, probed_append]
    split_ifs <;> simp [probed]

theorem foldl_first_known (probe : String → String × Int) (isURL : String → Bool)
    (r : Registry) (tasks : List (Nat × String)) (htasks : ∀ task ∈ tasks, r task.2 ≠ -1) :
    ∀ s : Sweeper Registry, (∀ t, r t ≠ -1 → s.ext t ≠ -1) →
      (∀ m ∈ marks s.calls, s.ext m.1 = 0 ∨ s.ext m.1 = 1) →
      (∀ t, r t ≠ -1 →
          (tasks.foldl (runTask (withRegistry probe isURL) true) s).ext t ≠ -1) ∧
        (∀ m ∈ marks (tasks.foldl (runTask (withRegistry probe isURL) true) s).calls,
          (tasks.foldl (runTask (withRegistry probe isURL) true) s).ext m.1 = 0 ∨
          (tasks.foldl (runTask (withRegistry probe isURL) true) s).ext m.1 = 1) ∧
        probed (tasks.foldl (runTask (withRegistry probe isURL) true) s).calls
          = probed s.calls ++ tasks.map Prod.snd ∧
        (marks (tasks.foldl (runTask (withRegistry probe isURL) true) s).calls).length
          = (marks s.calls).length + tasks.length := by
  induction tasks with
  | nil => intro s h1 h2; exact ⟨h1, h2, by simp, by simp⟩
  | cons task rest ih =>
    intro s h1 h2
    have hne : s.ext task.2 ≠ -1 := h1 _ (htasks task (List.mem_cons_self _ _))
    obtain ⟨ru, rl, hrl, hext, hmarks, hprobed⟩ := runTask_first_known probe isURL s task hne
    have hrl' : rl ≠ -1 := by rcases hrl with h | h <;> rw [h] <;> decide
    have k1 : ∀ t, r t ≠ -1 → (runTask (withRegistry probe isURL) true s task).ext t ≠ -1 := by
      intro t ht
      rw [hext t]
      split_ifs
      · exact hrl'
      · exact h1 t ht
    have k2 : ∀ m ∈ marks (runTask (withRegistry probe isURL) true s task).calls,
        (runTask (withRegistry probe isURL) true s task).ext m.1 = 0 ∨
        (runTask (withRegistry probe isURL) true s task).ext m.1 = 1 := by
      intro m hm
      rw [hext m.1]
      split_ifs with hru
      · exact hrl
      · rw [hmarks, List.mem_append] at hm
        rcases hm with hm | hm
        · exact h2 m hm
        · simp at hm
          exact absurd (by rw [hm]) hru
    obtain ⟨g1, g2, g3, g4⟩ :=
      ih (fun t ht => htasks t (List.mem_cons_of_mem _ ht)) _ k1 k2
    simp only [List.foldl_cons, List.map_cons, List.length_cons]
    refine ⟨g1, g2, ?_, ?_⟩
    · rw [g3, hprobed, List.append_assoc]
      rfl
    · rw [g4, hmarks, List.length_append]
      simp
      omega

/-! ## The liveness sweeper: theorems on the first pass -/

/-- C9 (as stated, refuted): with three targets that the registry holds as Unprobed, the first
pass makes no probe call, and the three targets are still Unprobed when it ends. -/
theorem first_pass_three_unprobed :
    (∀ t ∈ ["a", "b", "c"], (Registry.HandleTargetLive Registry.empty t (-1)).1 = -1) ∧
      countProbe (runTargetLivenessCheck
        (withRegistry (fun u => ("http://" ++ u, 200)) schemeIsURL) 1 Registry.empty
        ["a", "b", "c"]).calls = 0 ∧
      (∀ t ∈ ["a", "b", "c"], (Registry.HandleTargetLive (runTargetLivenessCheck
        (withRegistry (fun u => ("http://" ++ u, 200)) schemeIsURL) 1 Registry.empty
        ["a", "b", "c"]).ext t (-1)).1 = -1) := by
  refine ⟨by decide, by decide, by decide⟩

/-- C9 (amended): when every target of the set is Unprobed (-1) in the registry before the first
pass, the first pass queries the registry once for each target, in order, makes no probe call
and no registry mark, and every target is still Unprobed when the pass ends. -/
theorem first_pass_unprobed_set (probe : String → String × Int) (isURL : String → Bool)
    (r : Registry) (ts : List String) (hne : ts ≠ []) (h : ∀ t ∈ ts, r t = -1) :
    queries (runTargetLivenessCheck (withRegistry probe isURL) 1 r ts).calls = ts ∧
      countProbe (runTargetLivenessCheck (withRegistry probe isURL) 1 r ts).calls = 0 ∧
      marks (runTargetLivenessCheck (withRegistry probe isURL) 1 r ts).calls = [] ∧
      ∀ t ∈ ts, (Registry.HandleTargetLive
        (runTargetLivenessCheck (withRegistry probe isURL) 1 r ts).ext t (-1)).1 = -1 := by
  have hlen : ts.length > 0 := List.length_pos.2 hne
  have hfold := foldl_first_unprobed probe isURL (passTasks ts)
    { ext := r, Targets := ts, calls := [] }
    (fun task htask => h _ (mem_passTasks_snd ts task htask))
  obtain ⟨h1, h2, h3, h4⟩ := hfold
  simp only [runTargetLivenessCheck, sweepLoop, sweepPass, hlen, if_true]
  refine ⟨?_, ?_, ?_, ?_⟩
  · rw [h4, passTasks_snd]; rfl
  · rw [h2]; rfl
  · rw [h3]; rfl
  · intro t ht
    rw [h1]
    simp [Registry.HandleTargetLive, h t ht]

/-- An instance of the amended C9: three Unprobed targets, no probe on the first pass. -/
theorem first_pass_unprobed_set_witness :
    ["a", "b", "c"] ≠ [] ∧ (∀ t ∈ ["a", "b", "c"], Registry.empty t = -1) ∧
      countProbe (runTargetLivenessCheck
        (withRegistry (fun u => ("http://" ++ u, 200)) schemeIsURL) 1 Registry.empty
        ["a", "b", "c"]).calls = 0 :=
  ⟨by decide, by decide,
   (first_pass_unprobed_set (fun u => ("http://" ++ u, 200)) schemeIsURL Registry.empty
      ["a", "b", "c"] (by decide) (by decide)).2.1⟩

/-- On the first pass the targets that are probed are those the registry does not hold as
Unprobed: when no target of the set is Unprobed, each target is probed exactly once, in
order, one registry mark is made per target, and every string that was marked is Dead (0) or
Alive (1) when the pass ends. -/
theorem first_pass_known_set (probe : String → String × Int) (isURL : String → Bool)
    (r : Registry) (ts : List String) (h : ∀ t ∈ ts, r t ≠ -1) :
    probed (runTargetLivenessCheck (withRegistry probe isURL) 1 r ts).calls = ts ∧
      countProbe (runTargetLivenessCheck (withRegistry probe isURL) 1 r ts).calls
        = ts.length ∧
      (marks (runTargetLivenessCheck (withRegistry probe isURL) 1 r ts).calls).length
        = ts.length ∧
      ∀ m ∈ marks (runTargetLivenessCheck (withRegistry probe isURL) 1 r ts).calls,
        (runTargetLivenessCheck (withRegistry probe isURL) 1 r ts).ext m.1 = 0 ∨
        (runTargetLivenessCheck (withRegistry probe isURL) 1 r ts).ext m.1 = 1 := by
  by_cases hlen : ts.length > 0
  · have hfold := foldl_first_known probe isURL r (passTasks ts)
      (fun task htask => h _ (mem_passTasks_snd ts task htask))
      { ext := r, Targets := ts, calls := [] } (fun _ ht => ht)
      (by intro m hm; simp [marks] at hm)
    obtain ⟨_, h2, h3, h4⟩ := hfold
    have hp : probed (runTargetLivenessCheck (withRegistry probe isURL) 1 r ts).calls = ts := by
      simp only [runTargetLivenessCheck, sweepLoop, sweepPass, hlen, if_true]
      rw [h3, passTasks_snd]; rfl
    refine ⟨hp, ?_, ?_, ?_⟩
    · rw [countProbe_eq_length_probed, hp]
    · simp only [runTargetLivenessCheck, sweepLoop, sweepPass, hlen, if_true]
      rw [h4]
      simp [marks, passTasks]
    · simp only [runTargetLivenessCheck, sweepLoop, sweepPass, hlen, if_true]
      exact h2
  · have hnil : ts = [] := by
      cases ts with
      | nil => rfl
      | cons a as => simp at hlen
    subst hnil
    simp [runTargetLivenessCheck, sweepLoop, sweepPass, probed, countProbe, marks]

/-! ## The liveness sweeper: the passes after the first -/

theorem mem_passTasks_position (ts : List String) (task : Nat × String)
    (h : task ∈ passTasks ts) : ts[task.1]? = some task.2 := by
  obtain ⟨n, hn⟩ := List.mem_iff_getElem?.1 h
  unfold passTasks at hn
  rw [List.getElem?_zip_eq_some] at hn
  obtain ⟨h1, h2⟩ := hn
  have hlt : n < (List.range ts.length).length := by
    by_contra hge
    rw [List.getElem?_eq_none (by omega)] at h1
    exact absurd h1 (by simp)
  rw [List.length_range] at hlt
  rw [List.getElem?_range hlt] at h1
  have : n = task.1 := by injection h1
  rw [← this]
  exact h2

theorem set_same_string (ts : List String) (k : Nat) (t : String) (h : ts[k]? = some t) :
    ts.set k t = ts := by
  apply List.ext_getElem?
  intro j
  by_cases hj : k = j
  · subst hj
    have hlt : k < ts.length := by
      by_contra hge
      rw [List.getElem?_eq_none (by omega)] at h
      exact absurd h (by simp)
    simp [List.getElem?_set, hlt, h]
  · simp [List.getElem?_set, hj]

/-- A task of a later pass whose target the registry does not hold as NeedsRecheck: nothing is
probed or marked, the registry and the target set are left as they are. -/
theorem runTask_later_skip (probe : String → String × Int) (isURL : String → Bool)
    (s : Sweeper Registry) (task : Nat × String) (h : s.ext task.2 ≠ 2)
    (hpos : s.Targets[task.1]? = some task.2) :
    (runTask (withRegistry probe isURL) false s task).ext = s.ext ∧
      (runTask (withRegistry probe isURL) false s task).Targets = s.Targets ∧
      probed (runTask (withRegistry probe isURL) false s task).calls = probed s.calls ∧
      marks (runTask (withRegistry probe isURL) false s task).calls = marks s.calls := by
  have hq : ((withRegistry probe isURL).HandleTargetLive s.ext task.2 (-1)).1 ≠ 2 := by
    rw [withRegistry_query]; exact h
  have hskip : (false = true ∧ ((withRegistry probe isURL).HandleTargetLive s.ext task.2 (-1)).1
        = -1) ∨ (false = false ∧
      ((withRegistry probe isURL).HandleTargetLive s.ext task.2 (-1)).1 ≠ 2) :=
    Or.inr ⟨rfl, hq⟩
  simp only [runTask]
  refine ⟨?_, ?_, ?_, ?_⟩
  · rw [sweepWorker_ext_of_skip _ false task.1 task.2 s.ext s.Targets hskip, withRegistry_query]
  · rw [sweepWorker_of_skip _ false task.1 task.2 s.ext s.Targets hskip, writeBack_Targets]
    simp only [afterQuery]
    split_ifs
    · exact set_same_string _ _ _ hpos
    · rfl
  · rw [sweepWorker_calls_of_skip _ false task.1 task.2 s.ext s.Targets hskip, probed_append]
    split_ifs <;> simp [probed]
  · rw [sweepWorker_calls_of_skip _ false task.1 task.2 s.ext s.Targets hskip, marks_append]
    split_ifs <;> simp [marks]

theorem foldl_later_skip (probe : String → String × Int) (isURL : String → Bool)
    (tasks : List (Nat × String)) :
    ∀ s : Sweeper Registry,
      (∀ task ∈ tasks, s.ext task.2 ≠ 2 ∧ s.Targets[task.1]? = some task.2) →
      (tasks.foldl (runTask (withRegistry probe isURL) false) s).ext = s.ext ∧
        (tasks.foldl (runTask (withRegistry probe isURL) false) s).Targets = s.Targets ∧
        probed (tasks.foldl (runTask (withRegistry probe isURL) false) s).calls
          = probed s.calls ∧
        marks (tasks.foldl (runTask (withRegistry probe isURL) false) s).calls
          = marks s.calls := by
  induction tasks with
  | nil => intro s _; simp
  | cons task rest ih =>
    intro s h
    obtain ⟨ha, hb⟩ := h task (List.mem_cons_self _ _)
    obtain ⟨h1, h2, h3, h4⟩ := runTask_later_skip probe isURL s task ha hb
    have hrest : ∀ t ∈ rest,
        (runTask (withRegistry probe isURL) false s task).ext t.2 ≠ 2 ∧
        (runTask (withRegistry probe isURL) false s task).Targets[t.1]? = some t.2 := by
      intro t ht
      rw [h1, h2]
      exact h t (List.mem_cons_of_mem _ ht)
    obtain ⟨g1, g2, g3, g4⟩ := ih _ hrest
    simp only [List.foldl_cons]
    exact ⟨g1.trans h1, g2.trans h2, g3.trans h3, g4.trans h4⟩

theorem sweepPass_later_skip (probe : String → String × Int) (isURL : String → Bool)
    (s : Sweeper Registry) (h : ∀ t ∈ s.Targets, s.ext t ≠ 2) :
    (sweepPass (withRegistry probe isURL) false s).ext = s.ext ∧
      (sweepPass (withRegistry probe isURL) false s).Targets = s.Targets ∧
      probed (sweepPass (withRegistry probe isURL) false s).calls = probed s.calls ∧
      marks (sweepPass (withRegistry probe isURL) false s).calls = marks s.calls := by
  unfold sweepPass
  split_ifs
  · exact foldl_later_skip probe isURL (passTasks s.Targets) s
      (fun task htask => ⟨h _ (mem_passTasks_snd _ task htask),
        mem_passTasks_position _ task htask⟩)
  · exact ⟨rfl, rfl, rfl, rfl⟩

/-- Later sweeps, with the registry left to the sweeper: as long as no target of the set is
held as NeedsRecheck (2), for instance when all are Alive (1), any number of passes after the
first probes nothing and marks nothing, and leaves the registry and the target set as they
are. -/
theorem later_sweeps_never_probe (probe : String → String × Int) (isURL : String → Bool)
    (n : Nat) :
    ∀ s : Sweeper Registry, (∀ t ∈ s.Targets, s.ext t ≠ 2) →
      (sweepLoop (withRegistry probe isURL) false n s).ext = s.ext ∧
        (sweepLoop (withRegistry probe isURL) false n s).Targets = s.Targets ∧
        probed (sweepLoop (withRegistry probe isURL) false n s).calls = probed s.calls ∧
        marks (sweepLoop (withRegistry probe isURL) false n s).calls = marks s.calls := by
  induction n with
  | zero => intro s _; exact ⟨rfl, rfl, rfl, rfl⟩
  | succ n ih =>
    intro s h
    obtain ⟨h1, h2, h3, h4⟩ := sweepPass_later_skip probe isURL s h
    have hnext : ∀ t ∈ (sweepPass (withRegistry probe isURL) false s).Targets,
        (sweepPass (withRegistry probe isURL) false s).ext t ≠ 2 := by
      rw [h1, h2]; exact h
    obtain ⟨g1, g2, g3, g4⟩ := ih _ hnext
    simp only [sweepLoop]
    exact ⟨g1.trans h1, g2.trans h2, g3.trans h3, g4.trans h4⟩

end Runner
